import Mathlib

/-!
Verification development for the create-specra project-scaffolding pipeline
(repository dalmasonto/specra-cli).

The embedding covers:
* `createProject` from src/create-project.ts (present verbatim in the source
  snapshot): destination gate, template resolution, template copy, manifest
  name patch, ignore-file rename, dependency install, best-effort git step,
  and the reporter messages;
* `detectPackageManager` and `validateProjectName` from src/utils.ts, as
  documented with their implementation in the repository's developer guide;
* helpers whose implementation file is absent from the snapshot
  (`isFolderEmpty`, `copyRecursive`, `getPackageManagerCommand`, the git
  step, the validate-npm-package-name library); these are modelled from the
  spec and marked as such in their doc comments.

The file system is modelled as a flat association list from relative paths
(lists of segments) to file data.  String helpers are reimplemented by
structural recursion over character lists so that every definition evaluates
inside the kernel.
-/

/-! ## String helpers (kernel-computable replacements for runtime functions) -/

/-- Check that `pat` occurs at the start of `s` (models startsWith). -/
def isPrefixList : List Char → List Char → Bool
  | [], _ => true
  | _ :: _, [] => false
  | a :: as, b :: bs => a == b && isPrefixList as bs

/-- Check that `pat` occurs somewhere inside `s` (models JavaScript includes). -/
def containsSub : List Char → List Char → Bool
  | [], pat => pat.isEmpty
  | c :: rest, pat => isPrefixList pat (c :: rest) || containsSub rest pat

/-- Substring test on strings. -/
def strContains (s pat : String) : Bool := containsSub s.data pat.data

/-- First character test. -/
def headIs (s : String) (c : Char) : Bool :=
  match s.data with
  | [] => false
  | a :: _ => a == c

/-- Lower-case every character (models toLowerCase). -/
def lowerStr (s : String) : String := ⟨s.data.map Char.toLower⟩

/-- Remove surrounding whitespace (models trim). -/
def trimStr (s : String) : String :=
  ⟨((s.data.dropWhile Char.isWhitespace).reverse.dropWhile Char.isWhitespace).reverse⟩

/-- Split a character list at slash characters, accumulating the current segment. -/
def splitSlashAux : List Char → List Char → List (List Char)
  | [], cur => [cur.reverse]
  | c :: rest, cur =>
    if c == '/' then cur.reverse :: splitSlashAux rest []
    else splitSlashAux rest (c :: cur)

/-- Final non-empty path segment (models path.basename after path.resolve for
the relative slash-separated paths the CLI receives). -/
def basename (p : String) : String :=
  match ((splitSlashAux p.data []).filter (fun l => !l.isEmpty)).getLast? with
  | some l => ⟨l⟩
  | none => p

/-- String membership in a list, by decidable equality. -/
def memStr (x : String) (l : List String) : Bool :=
  l.any (fun y => decide (y = x))

/-- Join strings with a separator (models JSON pretty-printer line joining). -/
def joinWith (sep : String) : List String → String
  | [] => ""
  | [x] => x
  | x :: y :: rest => x ++ sep ++ joinWith sep (y :: rest)

/-! ## Project-name validation (src/utils.ts, validateProjectName) -/

/-- Modelled from the spec: reserved package names that are hard errors of the
package-identifier rules. -/
def blacklist : List String := ["node_modules", "favicon.ico"]

/-- Modelled from the spec: builtin module identifiers that are merely
discouraged (warning level). -/
def builtins : List String :=
  ["http", "https", "events", "stream", "util", "path", "url", "fs"]

/-- Modelled from the spec: the restricted character set of package names,
excluding capital letters which are warned about separately. -/
def allowedChar (c : Char) : Bool :=
  c.isLower || c.isDigit || c == '-' || c == '_' || c == '.'

/-- One name part: non-empty and made of URL-friendly characters. -/
def validPartL (l : List Char) : Bool :=
  !l.isEmpty && l.all (fun c => allowedChar c || c.isUpper)

/-- Modelled from the spec: restricted character set with optional scope
syntax (an at-sign scope, a slash, then the package part). -/
def charsetOk (name : String) : Bool :=
  match name.data with
  | '@' :: rest =>
    match splitSlashAux rest [] with
    | [scope, pkg] => validPartL scope && validPartL pkg
    | _ => false
  | _ => validPartL name.data

/-- Modelled from the spec: hard errors of the package-identifier rules; any
of these makes the name unusable. -/
def npmNameErrors (name : String) : List String :=
  (if name.length == 0 then ["name length must be greater than zero"] else []) ++
  (if headIs name '.' then ["name cannot start with a period"] else []) ++
  (if headIs name '_' then ["name cannot start with an underscore"] else []) ++
  (if !(decide (trimStr name = name)) then ["name cannot contain leading or trailing spaces"] else []) ++
  (if memStr (lowerStr name) blacklist then [lowerStr name ++ " is a blacklisted name"] else []) ++
  (if !(charsetOk name) then ["name can only contain URL-friendly characters"] else [])

/-- Modelled from the spec: warning-level rules, discouraged but technically
legal for old packages. -/
def npmNameWarnings (name : String) : List String :=
  (if memStr (lowerStr name) builtins then [lowerStr name ++ " is a core module name"] else []) ++
  (if decide (214 < name.length) then ["name can no longer contain more than 214 characters"] else []) ++
  (if !(decide (lowerStr name = name)) then ["name can no longer contain capital letters"] else [])

/-- Result shape of the validate-npm-package-name library. -/
structure NpmValidation where
  validForNewPackages : Bool
  errors : List String
  warnings : List String
deriving DecidableEq, Repr

/-- Modelled from the spec: the validate-npm-package-name library, which keeps
hard errors and warnings in separate lists and accepts a name for new packages
exactly when both lists are empty. -/
def validateNpmName (name : String) : NpmValidation :=
  let es := npmNameErrors name
  let ws := npmNameWarnings name
  ⟨es.isEmpty && ws.isEmpty, es, ws⟩

/-- Result of the repository's validateProjectName: a validity flag and one
combined problem list. -/
structure NameValidationResult where
  valid : Bool
  problems : List String
deriving DecidableEq, Repr

/-- Embeds validateProjectName from src/utils.ts as documented in
src/unnamed/part_000: valid when the library accepts the name for new
packages, otherwise invalid with the library's errors and warnings
concatenated into a single problems list. -/
def validateProjectName (name : String) : NameValidationResult :=
  let v := validateNpmName name
  if v.validForNewPackages then ⟨true, []⟩
  else ⟨false, v.errors ++ v.warnings⟩

/-- Spec wording restated (section 4.2): the package-identifier rules —
non-empty, lowercase-only, no leading dot or underscore, no surrounding
spaces, restricted character set with optional scope, length bound, not a
reserved name and not a builtin identifier. -/
def satisfiesPackageRules (name : String) : Bool :=
  !(name.length == 0) &&
  (decide (lowerStr name = name)) &&
  !(headIs name '.') &&
  !(headIs name '_') &&
  (decide (trimStr name = name)) &&
  charsetOk name &&
  !(decide (214 < name.length)) &&
  !(memStr (lowerStr name) blacklist) &&
  !(memStr (lowerStr name) builtins)

/-! ## Package-manager resolution (src/utils.ts) -/

/-- CLI package-manager selection flags, stored by the option parser as
booleans independent of the order the flags were passed. -/
structure CreateOptions where
  useNpm : Bool
  useYarn : Bool
  usePnpm : Bool
deriving DecidableEq, Repr

/-- Embeds detectPackageManager from src/utils.ts (implementation documented
in src/unnamed/part_000): the flags are checked first, in the order npm,
yarn, pnpm; then the npm_config_user_agent environment value, passed
explicitly here; then the fixed default npm. -/
def detectPackageManager (options : CreateOptions) (userAgent : Option String) : String :=
  if options.useNpm then "npm"
  else if options.useYarn then "yarn"
  else if options.usePnpm then "pnpm"
  else
    match userAgent with
    | some ua =>
      if strContains ua ("yarn") then "yarn"
      else if strContains ua ("pnpm") then "pnpm"
      else "npm"
    | none => "npm"

/-- The package-manager signal contributed by the user agent alone, with the
same check order the code uses. -/
def envSignal (userAgent : Option String) : Option String :=
  match userAgent with
  | some ua =>
    if strContains ua ("yarn") then some ("yarn")
    else if strContains ua ("pnpm") then some ("pnpm")
    else none
  | none => none

/-- Command set of a package manager: the install command and the script
invocation shape. -/
structure PMCommand where
  install : String
  run : String → String

/-- Modelled from the spec: getPackageManagerCommand from src/utils.ts —
produces the install and script commands for the resolved manager. -/
def getPackageManagerCommand (pm : String) : PMCommand :=
  if pm == "yarn" then ⟨"yarn install", fun s => "yarn " ++ s⟩
  else if pm == "pnpm" then ⟨"pnpm install", fun s => "pnpm " ++ s⟩
  else ⟨"npm install", fun s => "npm run " ++ s⟩

/-! ## File-system model -/

/-- File contents: opaque text, or a parsed JSON object for the manifest
(a list of key/value pairs in document order, values kept opaque). -/
inductive FileData where
  | raw (s : String)
  | jsonObj (kvs : List (String × String))
deriving DecidableEq, Repr

/-- A directory tree, flattened: relative path segments paired with file data. -/
abbrev Dir := List (List String × FileData)

/-- Look up the file stored at a path. -/
def lookupFile : Dir → List String → Option FileData
  | [], _ => none
  | e :: es, p => if e.1 = p then some e.2 else lookupFile es p

/-- Overwrite the data stored at an existing path. -/
def setEntryFile : Dir → List String → FileData → Dir
  | [], _, _ => []
  | e :: es, p, v => (if e.1 = p then (p, v) else e) :: setEntryFile es p v

/-- Write a file: overwrite in place when present, append otherwise. -/
def upsert (d : Dir) (e : (List String) × FileData) : Dir :=
  if (lookupFile d e.1).isSome then setEntryFile d e.1 e.2 else d ++ [e]

/-- Modelled from the spec: copyRecursive from src/utils.ts — a full
recursive copy of the template tree into the destination, preserving
relative paths and file contents exactly. -/
def copyRecursive (src dst : Dir) : Dir := src.foldl upsert dst

/-- Top-level name of an entry (first path segment). -/
def topName (p : List String) : String :=
  match p with
  | [] => ""
  | a :: _ => a

/-- Top-level entry names of a directory. -/
def topNames (d : Dir) : List String := d.map (fun e => topName e.1)

/-- Modelled from the spec: the benign allow-list used by isFolderEmpty —
version-control metadata, OS metadata files, IDE project files, license
files and editor configuration. -/
def validFiles : List String :=
  [".git", ".gitignore", ".gitattributes", ".DS_Store", "Thumbs.db",
   ".idea", ".vscode", "LICENSE", ".editorconfig", ".npmignore"]

/-- Modelled from the spec: isFolderEmpty from src/utils.ts — the directory
counts as empty when every top-level entry is on the benign allow-list. -/
def isFolderEmpty (d : Dir) : Bool :=
  (topNames d).all (fun n => memStr n validFiles)

/-- Update one key of the manifest in place, appending it when absent
(models a JavaScript property assignment followed by serialization in
document order). -/
def setKey (kvs : List (String × String)) (k v : String) : List (String × String) :=
  if kvs.any (fun kv => decide (kv.1 = k)) then
    kvs.map (fun kv => if kv.1 = k then (k, v) else kv)
  else kvs ++ [(k, v)]

/-- Value stored under a manifest key. -/
def lookupKey : List (String × String) → String → Option String
  | [], _ => none
  | kv :: rest, k => if kv.1 = k then some kv.2 else lookupKey rest k

/-- JSON string encoding of a manifest value (values of `FileData.jsonObj`
hold the serialized form of each value). -/
def jstr (s : String) : String := "\x22" ++ s ++ "\x22"

/-- Rename the extension-less ignore file shipped by templates to its dotted
form (models the renameSync step of createProject). -/
def renameGitignore : Dir → Dir
  | [] => []
  | e :: es =>
    (if e.1 = ["gitignore"] then (([".gitignore"] : List String), e.2) else e)
      :: renameGitignore es

/-- Serialization used when the patched manifest is written back:
two-space indentation, keys in list order, and a trailing newline
(models JSON.stringify with indent 2 plus the appended newline). -/
def serializeManifest (kvs : List (String × String)) : String :=
  ("\x7b\n" ++
    joinWith (",\n") (kvs.map (fun kv => "  \x22" ++ kv.1 ++ "\x22: " ++ kv.2)) ++
    "\n\x7d") ++ "\n"

/-! ## The createProject pipeline (src/create-project.ts) -/

/-- Invocation arguments of createProject. -/
structure CreateProjectArgs where
  projectName : String
  template : String
  packageManager : String
  skipInstall : Bool
deriving DecidableEq, Repr

/-- Environment of one run: the state found at the destination path, the
bundled templates, and the outcomes of the two external commands. -/
structure FsEnv where
  destExists : Bool
  dest : Dir
  writable : Bool
  templates : List (String × Dir)
  installOk : Bool
  gitOk : Bool
deriving Repr

/-- Effect events recorded by the model. -/
inductive Event where
  | copyTemplate (templateId : String)
  | writeManifest
  | renameIgnore
  | spawn (cmd : String)
deriving DecidableEq, Repr

/-- Observable outcome of a run: exit code, final state of the destination,
the recorded effect events, and the console messages. -/
structure RunResult where
  exitCode : Nat
  destExists : Bool
  dest : Dir
  events : List Event
  output : List String
deriving DecidableEq, Repr

/-- Console messages of createProject. -/
def creatingMsg (root : String) : String :=
  "Creating a new Specra documentation site in " ++ root

/-- Message printed after the template resolves. -/
def usingTemplateMsg (t : String) : String := "Using template: " ++ t

/-- Message of the unwritable-destination abort. -/
def notWritableMsg (p : String) : String :=
  "The directory " ++ p ++ " is not writable."

/-- Message of the non-empty-destination abort. -/
def conflictMsg (p : String) : String :=
  "The directory " ++ p ++ " contains files that could conflict. Please use a new directory."

/-- Message of the unknown-template abort. -/
def templateNotFoundMsg (t : String) : String :=
  "Template " ++ t ++ " not found."

/-- Message printed before the install subprocess starts. -/
def installingMsg : String := "Installing dependencies..."

/-- Message printed when the install subprocess exits non-zero. -/
def installFailedMsg : String := "Failed to install dependencies."

/-- Message printed when the git step succeeds. -/
def gitInitMsg : String := "Initialized a git repository."

/-- Reporter block printed on success (picocolors formatting elided). -/
def successMsgs (args : CreateProjectArgs) : List String :=
  let cmd := getPackageManagerCommand args.packageManager
  let appName := basename args.projectName
  ["Success! Created " ++ appName ++ " at " ++ args.projectName,
   "Inside that directory, you can run several commands:",
   "  " ++ cmd.run ("dev"),
   "    Starts the development server.",
   "  " ++ cmd.run ("build"),
   "    Builds the app for production.",
   "  " ++ cmd.run ("start"),
   "    Runs the built app in production mode.",
   "We suggest that you begin by typing:",
   "  cd " ++ args.projectName,
   "  " ++ cmd.run ("dev")]

/-- Effect of the git step on the destination: on success a repository
metadata entry appears, on failure nothing changes. -/
def gitApply (ok : Bool) (d : Dir) : Dir :=
  if ok then upsert d ((([".git", "HEAD"] : List String), FileData.raw (""))) else d

/-- Tail of the pipeline after materialization and patching: the best-effort
git step (modelled from the spec, src/utils.ts tryGitInit: one attempted
subprocess, failures swallowed) followed by the reporter. -/
def finishRun (args : CreateProjectArgs) (env : FsEnv) (d : Dir)
    (evs : List Event) (out : List String) : RunResult :=
  ⟨0, true, gitApply env.gitOk d, evs ++ [Event.spawn ("git init")],
    out ++ (if env.gitOk then [gitInitMsg] else []) ++ successMsgs args⟩

/-- Pipeline from template resolution onward, given the initial contents of
the (now existing) destination directory.  Mirrors src/create-project.ts:
template existence check, recursive copy, manifest name patch, ignore-file
rename, optional install with exit 1 on failure, git step, reporter. -/
def runPipeline (args : CreateProjectArgs) (env : FsEnv) (d0 : Dir) : RunResult :=
  let root := args.projectName
  let appName := basename root
  match env.templates.find? (fun t => decide (t.1 = args.template)) with
  | none =>
    ⟨1, true, d0, [], [creatingMsg root, templateNotFoundMsg args.template]⟩
  | some tpl =>
    let d1 := copyRecursive tpl.2 d0
    match lookupFile d1 (["package.json"]) with
    | some (FileData.jsonObj kvs) =>
      let d2 := setEntryFile d1 (["package.json"])
        (FileData.jsonObj (setKey kvs ("name") (jstr appName)))
      let d3 := renameGitignore d2
      let baseEvents := [Event.copyTemplate args.template, Event.writeManifest,
        Event.renameIgnore]
      let baseOut := [creatingMsg root, usingTemplateMsg args.template]
      if args.skipInstall then
        finishRun args env d3 baseEvents baseOut
      else
        let cmd := getPackageManagerCommand args.packageManager
        let evs := baseEvents ++ [Event.spawn cmd.install]
        let outI := baseOut ++ [installingMsg]
        if env.installOk then
          finishRun args env d3 evs outI
        else
          ⟨1, true, d3, evs, outI ++ [installFailedMsg]⟩
    | _ =>
      ⟨1, true, d1, [Event.copyTemplate args.template],
        [creatingMsg root, usingTemplateMsg args.template]⟩

/-- Destination gate of createProject: an existing destination must be
writable and empty enough; a missing one is created (recursively).  Returns
the initial contents of the destination when the gate passes. -/
def initialDir (env : FsEnv) : Option Dir :=
  if env.destExists then
    if !env.writable then none
    else if !(isFolderEmpty env.dest) then none
    else some env.dest
  else some []

/-- Embeds createProject from src/create-project.ts: the destination gate
(existence, writability, emptiness / recursive mkdir) followed by the
pipeline. -/
def createProject (args : CreateProjectArgs) (env : FsEnv) : RunResult :=
  if env.destExists then
    if !env.writable then
      ⟨1, true, env.dest, [], [notWritableMsg args.projectName]⟩
    else if !(isFolderEmpty env.dest) then
      ⟨1, true, env.dest, [], [conflictMsg args.projectName]⟩
    else runPipeline args env env.dest
  else runPipeline args env []

/-! ## Concrete fixtures used by witnesses and counterexamples -/

/-- Manifest shipped by the bundled minimal template. -/
def minimalManifest : List (String × String) :=
  [("name", jstr ("specra-template-minimal")),
   ("version", jstr ("0.1.0")),
   ("private", "true")]

/-- Bundled minimal template tree (abbreviated to the entries the claims
inspect). -/
def minimalTemplate : Dir :=
  [((["package.json"] : List String), FileData.jsonObj minimalManifest),
   ((["gitignore"] : List String), FileData.raw ("node_modules\n.next\n")),
   ((["app", "page.tsx"] : List String), FileData.raw ("export default Page")),
   ((["specra.config.ts"] : List String), FileData.raw ("export default config"))]

/-- Bundled template table of the CLI (only the minimal template ships). -/
def templatesFixture : List (String × Dir) := [("minimal", minimalTemplate)]

/-- Run environment with a fresh (non-existing) destination. -/
def envFresh : FsEnv := ⟨false, [], true, templatesFixture, true, true⟩

/-- Run environment whose destination exists and holds one disallowed file. -/
def envNonEmpty : FsEnv :=
  ⟨true, [((["notes.txt"] : List String), FileData.raw ("meeting notes"))],
   true, templatesFixture, true, true⟩

/-- Run environment whose destination exists and holds only allow-listed
entries. -/
def envBenign : FsEnv :=
  ⟨true, [(([".git", "HEAD"] : List String), FileData.raw ("ref: main")),
          ((["LICENSE"] : List String), FileData.raw ("MIT"))],
   true, templatesFixture, true, true⟩

/-- Run environment where the install subprocess exits non-zero. -/
def envInstallFail : FsEnv := ⟨false, [], true, templatesFixture, false, true⟩

/-! ## Lemmas about the file-system primitives -/

theorem lookupFile_setEntryFile_self (d : Dir) (p : List String) (v w : FileData)
    (h : lookupFile d p = some w) :
    lookupFile (setEntryFile d p v) p = some v := by
  induction d with
  | nil => simp [lookupFile] at h
  | cons e es ih =>
    by_cases hc : e.1 = p
    · simp [setEntryFile, lookupFile, hc]
    · simp [setEntryFile, lookupFile, hc] at h ⊢
      exact ih h

theorem lookupFile_setEntryFile_ne (d : Dir) (p q : List String) (v : FileData)
    (h : p ≠ q) :
    lookupFile (setEntryFile d q v) p = lookupFile d p := by
  induction d with
  | nil => rfl
  | cons e es ih =>
    by_cases hc : e.1 = q
    · have : q ≠ p := fun hqp => h hqp.symm
      simp [setEntryFile, lookupFile, hc, this]
      exact ih
    · simp [setEntryFile, lookupFile, hc]
      by_cases hp : e.1 = p
      · simp [hp]
      · simp [hp]
        exact ih

theorem lookupFile_append_ne (d : Dir) (e : (List String) × FileData) (p : List String)
    (h : p ≠ e.1) :
    lookupFile (d ++ [e]) p = lookupFile d p := by
  induction d with
  | nil =>
    have : e.1 ≠ p := fun hep => h hep.symm
    simp [lookupFile, this]
  | cons f fs ih =>
    by_cases hf : f.1 = p
    · simp [lookupFile, hf]
    · simp [lookupFile, hf]
      exact ih

theorem lookupFile_upsert_ne (d : Dir) (e : (List String) × FileData) (p : List String)
    (h : p ≠ e.1) :
    lookupFile (upsert d e) p = lookupFile d p := by
  unfold upsert
  by_cases hs : (lookupFile d e.1).isSome
  · simp [hs, lookupFile_setEntryFile_ne d p e.1 e.2 h]
  · simp [hs, lookupFile_append_ne d e p h]

theorem lookupFile_gitApply_ne (ok : Bool) (d : Dir) (p : List String)
    (h : p ≠ [".git", "HEAD"]) :
    lookupFile (gitApply ok d) p = lookupFile d p := by
  cases ok with
  | false => rfl
  | true => exact lookupFile_upsert_ne d _ p h

theorem lookupFile_renameGitignore_ne (d : Dir) (p : List String)
    (h1 : p ≠ ["gitignore"]) (h2 : p ≠ [".gitignore"]) :
    lookupFile (renameGitignore d) p = lookupFile d p := by
  induction d with
  | nil => rfl
  | cons e es ih =>
    by_cases hc : e.1 = ["gitignore"]
    · have ha : ¬(([".gitignore"] : List String) = p) := fun hx => h2 hx.symm
      have hb : ¬((["gitignore"] : List String) = p) := fun hx => h1 hx.symm
      simp [renameGitignore, lookupFile, hc, ha, hb]
      exact ih
    · simp [renameGitignore, lookupFile, hc]
      by_cases hp : e.1 = p
      · simp [hp]
      · simp [hp]
        exact ih

theorem lookupFile_renameGitignore_gone (d : Dir) :
    lookupFile (renameGitignore d) (["gitignore"]) = none := by
  induction d with
  | nil => rfl
  | cons e es ih =>
    by_cases hc : e.1 = ["gitignore"]
    · simp [renameGitignore, lookupFile, hc]
      exact ih
    · simp [renameGitignore, lookupFile, hc]
      exact ih

theorem lookupFile_renameGitignore_dotted (d : Dir) (g : FileData)
    (hdot : lookupFile d ([".gitignore"]) = none)
    (hg : lookupFile d (["gitignore"]) = some g) :
    lookupFile (renameGitignore d) ([".gitignore"]) = some g := by
  induction d with
  | nil => simp [lookupFile] at hg
  | cons e es ih =>
    by_cases hc : e.1 = ["gitignore"]
    · simp [lookupFile, hc] at hg
      simp [renameGitignore, lookupFile, hc, hg]
    · have hnd : e.1 ≠ [".gitignore"] := by
        intro hx
        simp [lookupFile, hx] at hdot
      simp [lookupFile, hc, hnd] at hg hdot
      simp [renameGitignore, lookupFile, hc, hnd]
      exact ih hdot hg

theorem renameGitignore_id (d : Dir)
    (h : lookupFile d (["gitignore"]) = none) :
    renameGitignore d = d := by
  induction d with
  | nil => rfl
  | cons e es ih =>
    by_cases hc : e.1 = ["gitignore"]
    · simp [lookupFile, hc] at h
    · simp [lookupFile, hc] at h
      simp [renameGitignore, hc, ih h]

theorem setKey_keys (kvs : List (String × String)) (k v : String)
    (h : kvs.any (fun kv => decide (kv.1 = k)) = true) :
    (setKey kvs k v).map (fun kv => kv.1) = kvs.map (fun kv => kv.1) := by
  unfold setKey
  rw [if_pos h]
  rw [List.map_map]
  apply List.map_congr_left
  intro a _
  by_cases hc : a.1 = k
  · simp [hc]
  · simp [hc]

theorem lookupKey_mapSet_ne (kvs : List (String × String)) (k v k' : String)
    (h : k' ≠ k) :
    lookupKey (kvs.map (fun kv => if kv.1 = k then (k, v) else kv)) k'
      = lookupKey kvs k' := by
  induction kvs with
  | nil => rfl
  | cons kv rest ih =>
    by_cases hc : kv.1 = k
    · have hk : ¬(k = k') := fun hx => h hx.symm
      simp [lookupKey, hc, hk]
      exact ih
    · simp only [List.map_cons, if_neg hc]
      by_cases hp : kv.1 = k'
      · simp [lookupKey, hp]
      · simp [lookupKey, hp]
        exact ih

theorem lookupKey_append_ne (kvs : List (String × String)) (k v k' : String)
    (h : k' ≠ k) :
    lookupKey (kvs ++ [(k, v)]) k' = lookupKey kvs k' := by
  induction kvs with
  | nil =>
    have hk : ¬(k = k') := fun hx => h hx.symm
    simp [lookupKey, hk]
  | cons kv rest ih =>
    by_cases hp : kv.1 = k'
    · simp [lookupKey, hp]
    · simp [lookupKey, hp]
      exact ih

theorem lookupKey_setKey_ne (kvs : List (String × String)) (k v k' : String)
    (h : k' ≠ k) :
    lookupKey (setKey kvs k v) k' = lookupKey kvs k' := by
  unfold setKey
  split
  · exact lookupKey_mapSet_ne kvs k v k' h
  · exact lookupKey_append_ne kvs k v k' h

/-! ## Lemmas about the pipeline gate and validation -/

theorem createProject_gate (args : CreateProjectArgs) (env : FsEnv) (d0 : Dir)
    (h0 : initialDir env = some d0) :
    createProject args env = runPipeline args env d0 := by
  unfold initialDir at h0
  unfold createProject
  cases hex : env.destExists with
  | false =>
    rw [hex] at h0
    simp at h0
    simp [h0]
  | true =>
    rw [hex] at h0
    cases hw : env.writable with
    | false => simp [hw] at h0
    | true =>
      rw [hw] at h0
      cases hfe : isFolderEmpty env.dest with
      | false => simp [hfe] at h0
      | true =>
        rw [hfe] at h0
        simp at h0
        simp [hw, hfe, h0]

theorem isFolderEmpty_false (d : Dir) (e : (List String) × FileData)
    (he : e ∈ d) (hv : memStr (topName e.1) validFiles = false) :
    isFolderEmpty d = false := by
  unfold isFolderEmpty
  cases hall : (topNames d).all (fun n => memStr n validFiles) with
  | false => rfl
  | true =>
    exfalso
    rw [List.all_eq_true] at hall
    have hm : topName e.1 ∈ topNames d := List.mem_map_of_mem _ he
    have := hall (topName e.1) hm
    rw [hv] at this
    exact Bool.false_ne_true this

theorem getPackageManagerCommand_install_ne_git (pm : String) :
    (getPackageManagerCommand pm).install ≠ "git init" := by
  unfold getPackageManagerCommand
  split_ifs <;> decide

theorem validateProjectName_valid (name : String) :
    (validateProjectName name).valid =
      ((npmNameErrors name).isEmpty && (npmNameWarnings name).isEmpty) := by
  simp only [validateProjectName, validateNpmName]
  split <;> simp_all

theorem npmNameErrors_isEmpty (name : String) :
    (npmNameErrors name).isEmpty =
      (!(name.length == 0) && !(headIs name '.') && !(headIs name '_') &&
       (decide (trimStr name = name)) && !(memStr (lowerStr name) blacklist) &&
       charsetOk name) := by
  unfold npmNameErrors
  split_ifs <;> simp_all

theorem npmNameWarnings_isEmpty (name : String) :
    (npmNameWarnings name).isEmpty =
      (!(memStr (lowerStr name) builtins) && !(decide (214 < name.length)) &&
       (decide (lowerStr name = name))) := by
  unfold npmNameWarnings
  split_ifs <;> simp_all

/-! ## Claim theorems -/

/-- C1: for every run whose destination path already exists and contains at
least one entry outside the benign allow-list, the run aborts with exit
code 1, the destination contents are left exactly as found (nothing added,
nothing removed), and no template copy, manifest write, install or VCS
event is performed. -/
theorem createProject_nonEmptyDest_aborts
    (args : CreateProjectArgs) (env : FsEnv)
    (hex : env.destExists = true)
    (hbad : ∃ e ∈ env.dest, memStr (topName e.1) validFiles = false) :
    (createProject args env).exitCode = 1 ∧
    (createProject args env).dest = env.dest ∧
    (createProject args env).destExists = true ∧
    (createProject args env).events = [] := by
  obtain ⟨e, he, hv⟩ := hbad
  have hfe : isFolderEmpty env.dest = false := isFolderEmpty_false env.dest e he hv
  unfold createProject
  rw [hex]
  cases hw : env.writable <;> simp [hw, hfe]

/-- Witness for C1 at a concrete run with one conflicting file. -/
theorem createProject_nonEmptyDest_aborts_witness :
    envNonEmpty.destExists = true ∧
    (∃ e ∈ envNonEmpty.dest, memStr (topName e.1) validFiles = false) ∧
    ((createProject ⟨"existing-dir", "minimal", "npm", false⟩ envNonEmpty).exitCode = 1 ∧
     (createProject ⟨"existing-dir", "minimal", "npm", false⟩ envNonEmpty).dest = envNonEmpty.dest ∧
     (createProject ⟨"existing-dir", "minimal", "npm", false⟩ envNonEmpty).destExists = true ∧
     (createProject ⟨"existing-dir", "minimal", "npm", false⟩ envNonEmpty).events = []) :=
  ⟨rfl, by decide,
   createProject_nonEmptyDest_aborts ⟨"existing-dir", "minimal", "npm", false⟩ envNonEmpty rfl
     (by decide)⟩

/-- C2 counterexample: with a non-existing destination and an unknown
template identifier the run exits 1 before any copy, but the destination
directory has already been created, contradicting the zero-mutation claim. -/
theorem createProject_unknownTemplate_mkdir_cex :
    envFresh.destExists = false ∧
    (createProject ⟨"my-docs", "nope", "npm", true⟩ envFresh).exitCode = 1 ∧
    (createProject ⟨"my-docs", "nope", "npm", true⟩ envFresh).destExists = true ∧
    (createProject ⟨"my-docs", "nope", "npm", true⟩ envFresh).dest = [] := by
  decide

/-- C2 amended: an unknown template identifier makes the run exit 1 before
any copy, manifest write, install or VCS event, leaving the destination
contents as the gate produced them — but when the destination did not exist
beforehand it has already been created (empty) by the mkdir step that
precedes template resolution. -/
theorem createProject_unknownTemplate_noCopy
    (args : CreateProjectArgs) (env : FsEnv) (d0 : Dir)
    (h0 : initialDir env = some d0)
    (hT : env.templates.find? (fun t => decide (t.1 = args.template)) = none) :
    (createProject args env).exitCode = 1 ∧
    (createProject args env).events = [] ∧
    (createProject args env).dest = d0 ∧
    (createProject args env).destExists = true ∧
    (createProject args env).output =
      [creatingMsg args.projectName, templateNotFoundMsg args.template] := by
  rw [createProject_gate args env d0 h0]
  unfold runPipeline
  rw [hT]
  exact ⟨rfl, rfl, rfl, rfl, rfl⟩

/-- Witness for the amended C2 on an existing destination holding only
allow-listed entries. -/
theorem createProject_unknownTemplate_noCopy_witness :
    initialDir envBenign = some envBenign.dest ∧
    envBenign.templates.find? (fun t => decide (t.1 = "nope")) = none ∧
    ((createProject ⟨"my-docs", "nope", "npm", true⟩ envBenign).exitCode = 1 ∧
     (createProject ⟨"my-docs", "nope", "npm", true⟩ envBenign).events = [] ∧
     (createProject ⟨"my-docs", "nope", "npm", true⟩ envBenign).dest = envBenign.dest ∧
     (createProject ⟨"my-docs", "nope", "npm", true⟩ envBenign).destExists = true ∧
     (createProject ⟨"my-docs", "nope", "npm", true⟩ envBenign).output =
       [creatingMsg ("my-docs"), templateNotFoundMsg ("nope")]) :=
  ⟨by decide, by decide,
   createProject_unknownTemplate_noCopy ⟨"my-docs", "nope", "npm", true⟩ envBenign
     envBenign.dest (by decide) (by decide)⟩

/-- C3: when the install subprocess exits non-zero the run exits 1 and the
destination keeps the materialized, patched tree (no rollback), but the
console output ends with the bare failure message: the manual cd plus
install command sequence promised by the documentation is never shown. -/
theorem createProject_installFailure_no_manual_commands :
    (createProject ⟨"my-docs", "minimal", "npm", false⟩ envInstallFail).exitCode = 1 ∧
    (createProject ⟨"my-docs", "minimal", "npm", false⟩ envInstallFail).output =
      [creatingMsg ("my-docs"), usingTemplateMsg ("minimal"), installingMsg, installFailedMsg] ∧
    ("  cd my-docs") ∉ (createProject ⟨"my-docs", "minimal", "npm", false⟩ envInstallFail).output ∧
    ("  npm install") ∉ (createProject ⟨"my-docs", "minimal", "npm", false⟩ envInstallFail).output ∧
    (createProject ⟨"my-docs", "minimal", "npm", false⟩ envInstallFail).dest =
      renameGitignore (setEntryFile (copyRecursive minimalTemplate [])
        (["package.json"])
        (FileData.jsonObj (setKey minimalManifest ("name") (jstr ("my-docs"))))) := by
  decide

/-- C10: when several package-manager flags are set at once the npm flag
wins over the yarn flag, which wins over the pnpm flag; the flags are
booleans, so command-line order cannot influence the outcome. -/
theorem detectPackageManager_flag_order :
    ∀ (y p : Bool) (ua : Option String),
      detectPackageManager ⟨true, y, p⟩ ua = "npm" ∧
      detectPackageManager ⟨false, true, p⟩ ua = "yarn" ∧
      detectPackageManager ⟨false, false, true⟩ ua = "pnpm" := by
  intro y p ua
  exact ⟨rfl, rfl, rfl⟩

/-- C6: package-manager resolution is a pure function whose precedence is
explicit override, then the user-agent environment signal, then the fixed
npm default; in particular override pnpm with signal yarn gives pnpm, and
no override with no signal gives npm. -/
theorem detectPackageManager_precedence (opts : CreateOptions) (ua : Option String) :
    ((opts.useNpm || opts.useYarn || opts.usePnpm) = true →
      ∀ ua2, detectPackageManager opts ua = detectPackageManager opts ua2) ∧
    ((opts.useNpm || opts.useYarn || opts.usePnpm) = false →
      detectPackageManager opts ua = (envSignal ua).getD ("npm")) ∧
    detectPackageManager ⟨false, false, true⟩ (some ("yarn/1.22.19")) = "pnpm" ∧
    detectPackageManager ⟨false, false, false⟩ none = "npm" := by
  obtain ⟨n, y, p⟩ := opts
  refine ⟨?_, ?_, rfl, rfl⟩
  · intro h ua2
    cases n with
    | true => rfl
    | false =>
      cases y with
      | true => rfl
      | false =>
        cases p with
        | true => rfl
        | false => simp at h
  · intro h
    cases n with
    | true => simp at h
    | false =>
      cases y with
      | true => simp at h
      | false =>
        cases p with
        | true => simp at h
        | false =>
          cases ua with
          | none => rfl
          | some s =>
            simp only [detectPackageManager, envSignal]
            by_cases h1 : strContains s ("yarn") = true
            · simp [h1]
            · simp only [Bool.not_eq_true] at h1
              by_cases h2 : strContains s ("pnpm") = true
              · simp [h1, h2]
              · simp only [Bool.not_eq_true] at h2
                simp [h1, h2]

/-- Witness for C6: no flags with a pnpm user agent resolves to the signal;
the pnpm override beats a yarn user agent. -/
theorem detectPackageManager_precedence_witness :
    detectPackageManager ⟨false, false, false⟩ (some ("pnpm/9.0.0"))
      = (envSignal (some ("pnpm/9.0.0"))).getD ("npm") ∧
    detectPackageManager ⟨false, false, true⟩ (some ("yarn/1.22.19")) = "pnpm" :=
  ⟨(detectPackageManager_precedence ⟨false, false, false⟩ (some ("pnpm/9.0.0"))).2.1 rfl,
   (detectPackageManager_precedence ⟨false, false, true⟩ (some ("yarn/1.22.19"))).2.2.1⟩

/-- C9 counterexample: for the builtin name http the library finds no hard
error, only a warning, yet validateProjectName reports invalid with the
warning inside its single problems list, so the problems reported as making
the name unusable are not the hard errors: the result does not separate the
two categories. -/
theorem validateProjectName_merges_warnings_cex :
    (validateProjectName ("http")).problems ≠ (validateNpmName ("http")).errors ∧
    (validateNpmName ("http")).errors = [] ∧
    (validateNpmName ("http")).warnings = ["http is a core module name"] ∧
    (validateProjectName ("http")).valid = false := by
  decide

/-- C9 amended: the validator returns a validity flag plus one combined
problems list that concatenates hard errors and warnings without marking
them, and it reports valid (with an empty problems list) exactly when the
name satisfies the package-identifier rules, warning-level rules included. -/
theorem validateProjectName_valid_iff_rules (name : String) :
    (validateProjectName name).valid = satisfiesPackageRules name ∧
    (validateProjectName name).problems =
      (if (validateNpmName name).validForNewPackages then []
       else (validateNpmName name).errors ++ (validateNpmName name).warnings) := by
  constructor
  · rw [validateProjectName_valid, npmNameErrors_isEmpty, npmNameWarnings_isEmpty]
    unfold satisfiesPackageRules
    generalize (name.length == 0) = a1
    generalize headIs name '.' = a2
    generalize headIs name '_' = a3
    generalize decide (trimStr name = name) = a4
    generalize memStr (lowerStr name) blacklist = a5
    generalize charsetOk name = a6
    generalize memStr (lowerStr name) builtins = a7
    generalize decide (214 < name.length) = a8
    generalize decide (lowerStr name = name) = a9
    cases a1 <;> cases a2 <;> cases a3 <;> cases a4 <;> cases a5 <;>
      cases a6 <;> cases a7 <;> cases a8 <;> cases a9 <;> rfl
  · simp only [validateProjectName]
    split <;> simp_all [validateNpmName]

/-- Reduction of the pipeline once the template resolves and the copied tree
contains a parseable manifest: the run is the finish step (git plus
reporter) or, on install failure, the exit-1 result over the patched tree. -/
theorem runPipeline_reduce (pn tp pm : String) (sk : Bool) (env : FsEnv)
    (d0 : Dir) (tpl : String × Dir) (kvs : List (String × String))
    (hT : env.templates.find? (fun t => decide (t.1 = tp)) = some tpl)
    (hM : lookupFile (copyRecursive tpl.2 d0) (["package.json"]) = some (FileData.jsonObj kvs)) :
    runPipeline ⟨pn, tp, pm, sk⟩ env d0 =
      (if sk then
        finishRun ⟨pn, tp, pm, sk⟩ env
          (renameGitignore (setEntryFile (copyRecursive tpl.2 d0) (["package.json"])
            (FileData.jsonObj (setKey kvs ("name") (jstr (basename pn))))))
          [Event.copyTemplate tp, Event.writeManifest, Event.renameIgnore]
          [creatingMsg pn, usingTemplateMsg tp]
      else if env.installOk then
        finishRun ⟨pn, tp, pm, sk⟩ env
          (renameGitignore (setEntryFile (copyRecursive tpl.2 d0) (["package.json"])
            (FileData.jsonObj (setKey kvs ("name") (jstr (basename pn))))))
          [Event.copyTemplate tp, Event.writeManifest, Event.renameIgnore,
           Event.spawn ((getPackageManagerCommand pm).install)]
          [creatingMsg pn, usingTemplateMsg tp, installingMsg]
      else
        ⟨1, true,
         renameGitignore (setEntryFile (copyRecursive tpl.2 d0) (["package.json"])
           (FileData.jsonObj (setKey kvs ("name") (jstr (basename pn))))),
         [Event.copyTemplate tp, Event.writeManifest, Event.renameIgnore,
          Event.spawn ((getPackageManagerCommand pm).install)],
         [creatingMsg pn, usingTemplateMsg tp, installingMsg, installFailedMsg]⟩) := by
  simp only [runPipeline, hT, hM]
  cases sk with
  | true => simp
  | false =>
    cases hio : env.installOk with
    | true => simp
    | false => simp

/-- C4 counterexample: a skipInstall run still performs a subprocess
invocation (the git step), and its resulting tree differs from the tree a
non-skip run holds just before dependency installation (observable as the
final tree of a run whose install fails, since nothing is rolled back):
the git step has added repository metadata. -/
theorem createProject_skipInstall_spawns_git_cex :
    Event.spawn ("git init") ∈
      (createProject ⟨"my-docs", "minimal", "npm", true⟩ envFresh).events ∧
    (createProject ⟨"my-docs", "minimal", "npm", true⟩ envFresh).dest ≠
      (createProject ⟨"my-docs", "minimal", "npm", false⟩ envInstallFail).dest := by
  decide

/-- C4 amended: a skipInstall run never spawns the resolved install command
(the only subprocess activity is the best-effort git step, which runs in both
modes), and its destination tree just before the git step is identical to
the tree a non-skip run produces just before dependency installation. -/
theorem createProject_skipInstall_noInstallSpawn
    (pn tp pm : String) (env : FsEnv) (d0 : Dir)
    (tpl : String × Dir) (kvs : List (String × String)) (d3 : Dir)
    (h0 : initialDir env = some d0)
    (hT : env.templates.find? (fun t => decide (t.1 = tp)) = some tpl)
    (hM : lookupFile (copyRecursive tpl.2 d0) (["package.json"]) = some (FileData.jsonObj kvs))
    (hd3 : d3 = renameGitignore (setEntryFile (copyRecursive tpl.2 d0) (["package.json"])
      (FileData.jsonObj (setKey kvs ("name") (jstr (basename pn)))))) :
    Event.spawn ((getPackageManagerCommand pm).install) ∉
      (createProject ⟨pn, tp, pm, true⟩ env).events ∧
    (createProject ⟨pn, tp, pm, true⟩ env).dest = gitApply env.gitOk d3 ∧
    (createProject ⟨pn, tp, pm, false⟩ { env with installOk := false }).dest = d3 ∧
    (createProject ⟨pn, tp, pm, false⟩ { env with installOk := false }).exitCode = 1 := by
  have h0f : initialDir { env with installOk := false } = some d0 := h0
  have hTf : ({ env with installOk := false } : FsEnv).templates.find?
      (fun t => decide (t.1 = tp)) = some tpl := hT
  have hredT := runPipeline_reduce pn tp pm true env d0 tpl kvs hT hM
  have hredF := runPipeline_reduce pn tp pm false { env with installOk := false } d0 tpl kvs hTf hM
  rw [createProject_gate _ env d0 h0, hredT, createProject_gate _ _ d0 h0f, hredF, ← hd3]
  refine ⟨?_, ?_, ?_, ?_⟩
  · simp [finishRun, getPackageManagerCommand_install_ne_git pm]
  · simp [finishRun]
  · simp [finishRun]
  · simp

/-- Witness for the amended C4 at a concrete run. -/
theorem createProject_skipInstall_noInstallSpawn_witness :
    initialDir envFresh = some [] ∧
    (Event.spawn ((getPackageManagerCommand ("npm")).install) ∉
       (createProject ⟨"my-docs", "minimal", "npm", true⟩ envFresh).events ∧
     (createProject ⟨"my-docs", "minimal", "npm", true⟩ envFresh).dest =
       gitApply envFresh.gitOk (renameGitignore (setEntryFile (copyRecursive minimalTemplate [])
         (["package.json"])
         (FileData.jsonObj (setKey minimalManifest ("name") (jstr (basename ("my-docs"))))))) ∧
     (createProject ⟨"my-docs", "minimal", "npm", false⟩ { envFresh with installOk := false }).dest =
       renameGitignore (setEntryFile (copyRecursive minimalTemplate [])
         (["package.json"])
         (FileData.jsonObj (setKey minimalManifest ("name") (jstr (basename ("my-docs")))))) ∧
     (createProject ⟨"my-docs", "minimal", "npm", false⟩ { envFresh with installOk := false }).exitCode = 1) :=
  ⟨by decide,
   createProject_skipInstall_noInstallSpawn "my-docs" "minimal" "npm" envFresh []
     ("minimal", minimalTemplate) minimalManifest _ (by decide) (by decide) (by decide) rfl⟩

/-- C5: on every successful run the written manifest has its name key set to
the final segment of the destination path however deep the path is, keys
stay in the order they were read, every other key keeps its value, and the
serialization used for the write ends with a newline. -/
theorem createProject_manifest_name_patch
    (pn tp pm : String) (sk : Bool) (env : FsEnv) (d0 : Dir)
    (tpl : String × Dir) (kvs : List (String × String))
    (h0 : initialDir env = some d0)
    (hT : env.templates.find? (fun t => decide (t.1 = tp)) = some tpl)
    (hM : lookupFile (copyRecursive tpl.2 d0) (["package.json"]) = some (FileData.jsonObj kvs))
    (hName : kvs.any (fun kv => decide (kv.1 = "name")) = true)
    (hOK : sk = true ∨ env.installOk = true) :
    (createProject ⟨pn, tp, pm, sk⟩ env).exitCode = 0 ∧
    lookupFile (createProject ⟨pn, tp, pm, sk⟩ env).dest (["package.json"]) =
      some (FileData.jsonObj (setKey kvs ("name") (jstr (basename pn)))) ∧
    (setKey kvs ("name") (jstr (basename pn))).map (fun kv => kv.1) =
      kvs.map (fun kv => kv.1) ∧
    (∀ k, ¬(k = "name") →
      lookupKey (setKey kvs ("name") (jstr (basename pn))) k = lookupKey kvs k) ∧
    (∃ t, serializeManifest (setKey kvs ("name") (jstr (basename pn))) = t ++ "\n") := by
  have hL : lookupFile (gitApply env.gitOk (renameGitignore (setEntryFile
      (copyRecursive tpl.2 d0) (["package.json"])
      (FileData.jsonObj (setKey kvs ("name") (jstr (basename pn))))))) (["package.json"]) =
      some (FileData.jsonObj (setKey kvs ("name") (jstr (basename pn)))) := by
    rw [lookupFile_gitApply_ne env.gitOk _ _ (by decide),
        lookupFile_renameGitignore_ne _ _ (by decide) (by decide)]
    exact lookupFile_setEntryFile_self _ _ _ _ hM
  have hred : (createProject ⟨pn, tp, pm, sk⟩ env).exitCode = 0 ∧
      (createProject ⟨pn, tp, pm, sk⟩ env).dest =
        gitApply env.gitOk (renameGitignore (setEntryFile (copyRecursive tpl.2 d0)
          (["package.json"]) (FileData.jsonObj (setKey kvs ("name") (jstr (basename pn)))))) := by
    rw [createProject_gate _ env d0 h0, runPipeline_reduce pn tp pm sk env d0 tpl kvs hT hM]
    rcases hOK with hsk | hio
    · simp [hsk, finishRun]
    · cases hsk : sk with
      | true => simp [finishRun]
      | false => simp [hio, finishRun]
  refine ⟨hred.1, ?_, setKey_keys kvs ("name") (jstr (basename pn)) hName,
    fun k hk => lookupKey_setKey_ne kvs ("name") (jstr (basename pn)) k hk, ⟨_, rfl⟩⟩
  rw [hred.2]
  exact hL

/-- Witness for C5 at a nested destination path. -/
theorem createProject_manifest_name_patch_witness :
    initialDir envFresh = some [] ∧
    envFresh.templates.find? (fun t => decide (t.1 = "minimal")) =
      some ("minimal", minimalTemplate) ∧
    lookupFile (copyRecursive minimalTemplate []) (["package.json"]) =
      some (FileData.jsonObj minimalManifest) ∧
    minimalManifest.any (fun kv => decide (kv.1 = "name")) = true ∧
    ((createProject ⟨"apps/site/my-docs", "minimal", "npm", true⟩ envFresh).exitCode = 0 ∧
     lookupFile (createProject ⟨"apps/site/my-docs", "minimal", "npm", true⟩ envFresh).dest
       (["package.json"]) =
       some (FileData.jsonObj (setKey minimalManifest ("name")
         (jstr (basename ("apps/site/my-docs"))))) ∧
     (setKey minimalManifest ("name") (jstr (basename ("apps/site/my-docs")))).map (fun kv => kv.1) =
       minimalManifest.map (fun kv => kv.1) ∧
     (∀ k, ¬(k = "name") →
       lookupKey (setKey minimalManifest ("name") (jstr (basename ("apps/site/my-docs")))) k =
         lookupKey minimalManifest k) ∧
     (∃ t, serializeManifest (setKey minimalManifest ("name")
        (jstr (basename ("apps/site/my-docs")))) = t ++ "\n")) :=
  ⟨by decide, by decide, by decide, by decide,
   createProject_manifest_name_patch "apps/site/my-docs" "minimal" "npm" true envFresh []
     ("minimal", minimalTemplate) minimalManifest (by decide) (by decide) (by decide)
     (by decide) (Or.inl rfl)⟩

/-- C7: for every run that reaches the git step, a git failure is swallowed:
exit code 0 either way, identical recorded events, and the only output
difference is the success line that a successful git step adds. -/
theorem createProject_gitFailure_swallowed
    (pn tp pm : String) (sk : Bool) (env : FsEnv) (d0 : Dir)
    (tpl : String × Dir) (kvs : List (String × String))
    (h0 : initialDir env = some d0)
    (hT : env.templates.find? (fun t => decide (t.1 = tp)) = some tpl)
    (hM : lookupFile (copyRecursive tpl.2 d0) (["package.json"]) = some (FileData.jsonObj kvs))
    (hOK : sk = true ∨ env.installOk = true) :
    ∃ pre post,
      (createProject ⟨pn, tp, pm, sk⟩ { env with gitOk := true }).output =
        pre ++ [gitInitMsg] ++ post ∧
      (createProject ⟨pn, tp, pm, sk⟩ { env with gitOk := false }).output = pre ++ post ∧
      (createProject ⟨pn, tp, pm, sk⟩ { env with gitOk := true }).exitCode = 0 ∧
      (createProject ⟨pn, tp, pm, sk⟩ { env with gitOk := false }).exitCode = 0 ∧
      (createProject ⟨pn, tp, pm, sk⟩ { env with gitOk := true }).events =
        (createProject ⟨pn, tp, pm, sk⟩ { env with gitOk := false }).events := by
  have h0t : initialDir { env with gitOk := true } = some d0 := h0
  have h0f : initialDir { env with gitOk := false } = some d0 := h0
  have hTt : ({ env with gitOk := true } : FsEnv).templates.find?
      (fun t => decide (t.1 = tp)) = some tpl := hT
  have hTf : ({ env with gitOk := false } : FsEnv).templates.find?
      (fun t => decide (t.1 = tp)) = some tpl := hT
  rw [createProject_gate _ _ d0 h0t, runPipeline_reduce pn tp pm sk _ d0 tpl kvs hTt hM,
      createProject_gate _ _ d0 h0f, runPipeline_reduce pn tp pm sk _ d0 tpl kvs hTf hM]
  rcases hOK with hsk | hio
  · refine ⟨[creatingMsg pn, usingTemplateMsg tp], successMsgs ⟨pn, tp, pm, sk⟩,
      ?_, ?_, ?_, ?_, ?_⟩ <;> simp [hsk, finishRun]
  · cases hsk : sk with
    | true =>
      refine ⟨[creatingMsg pn, usingTemplateMsg tp], successMsgs ⟨pn, tp, pm, true⟩,
        ?_, ?_, ?_, ?_, ?_⟩ <;> simp [finishRun]
    | false =>
      refine ⟨[creatingMsg pn, usingTemplateMsg tp, installingMsg],
        successMsgs ⟨pn, tp, pm, false⟩, ?_, ?_, ?_, ?_, ?_⟩ <;> simp [hio, finishRun]

/-- Witness for C7 at a concrete run. -/
theorem createProject_gitFailure_swallowed_witness :
    initialDir envFresh = some [] ∧
    envFresh.templates.find? (fun t => decide (t.1 = "minimal")) =
      some ("minimal", minimalTemplate) ∧
    lookupFile (copyRecursive minimalTemplate []) (["package.json"]) =
      some (FileData.jsonObj minimalManifest) ∧
    (∃ pre post,
      (createProject ⟨"my-docs", "minimal", "npm", true⟩ { envFresh with gitOk := true }).output =
        pre ++ [gitInitMsg] ++ post ∧
      (createProject ⟨"my-docs", "minimal", "npm", true⟩ { envFresh with gitOk := false }).output =
        pre ++ post ∧
      (createProject ⟨"my-docs", "minimal", "npm", true⟩ { envFresh with gitOk := true }).exitCode = 0 ∧
      (createProject ⟨"my-docs", "minimal", "npm", true⟩ { envFresh with gitOk := false }).exitCode = 0 ∧
      (createProject ⟨"my-docs", "minimal", "npm", true⟩ { envFresh with gitOk := true }).events =
        (createProject ⟨"my-docs", "minimal", "npm", true⟩ { envFresh with gitOk := false }).events) :=
  ⟨by decide, by decide, by decide,
   createProject_gitFailure_swallowed "my-docs" "minimal" "npm" true envFresh []
     ("minimal", minimalTemplate) minimalManifest (by decide) (by decide) (by decide)
     (Or.inl rfl)⟩

/-- C8: for every run that reaches the manifest-patching stage, a file named
exactly gitignore in the patched tree ends up renamed in place to its dotted
form in the final destination, and when no such file exists the rename is a
no-op and the rest of the pipeline is unaffected. -/
theorem createProject_gitignore_rename
    (pn tp pm : String) (sk : Bool) (env : FsEnv) (d0 : Dir)
    (tpl : String × Dir) (kvs : List (String × String)) (d2 : Dir)
    (h0 : initialDir env = some d0)
    (hT : env.templates.find? (fun t => decide (t.1 = tp)) = some tpl)
    (hM : lookupFile (copyRecursive tpl.2 d0) (["package.json"]) = some (FileData.jsonObj kvs))
    (hd2 : d2 = setEntryFile (copyRecursive tpl.2 d0) (["package.json"])
      (FileData.jsonObj (setKey kvs ("name") (jstr (basename pn))))) :
    (∀ g, lookupFile d2 (["gitignore"]) = some g →
       lookupFile d2 ([".gitignore"]) = none →
       lookupFile (createProject ⟨pn, tp, pm, sk⟩ env).dest ([".gitignore"]) = some g ∧
       lookupFile (createProject ⟨pn, tp, pm, sk⟩ env).dest (["gitignore"]) = none) ∧
    (lookupFile d2 (["gitignore"]) = none →
       renameGitignore d2 = d2 ∧
       (createProject ⟨pn, tp, pm, sk⟩ env).exitCode =
         (if sk then 0 else if env.installOk then 0 else 1)) := by
  have hdest : ∀ p, ¬(p = ([".git", "HEAD"] : List String)) →
      lookupFile (createProject ⟨pn, tp, pm, sk⟩ env).dest p =
        lookupFile (renameGitignore d2) p := by
    intro p hp
    rw [createProject_gate _ env d0 h0, runPipeline_reduce pn tp pm sk env d0 tpl kvs hT hM,
        ← hd2]
    cases sk with
    | true =>
      simp only [if_true, finishRun]
      exact lookupFile_gitApply_ne env.gitOk _ p hp
    | false =>
      cases hio : env.installOk with
      | true =>
        simp only [hio, if_false, if_true, finishRun]
        exact lookupFile_gitApply_ne env.gitOk _ p hp
      | false => simp [hio]
  have hexit : (createProject ⟨pn, tp, pm, sk⟩ env).exitCode =
      (if sk then 0 else if env.installOk then 0 else 1) := by
    rw [createProject_gate _ env d0 h0, runPipeline_reduce pn tp pm sk env d0 tpl kvs hT hM]
    cases sk with
    | true => simp [finishRun]
    | false =>
      cases hio : env.installOk with
      | true => simp [hio, finishRun]
      | false => simp [hio]
  constructor
  · intro g hg hdot
    exact ⟨(hdest _ (by decide)).trans (lookupFile_renameGitignore_dotted d2 g hdot hg),
           (hdest _ (by decide)).trans (lookupFile_renameGitignore_gone d2)⟩
  · intro hnone
    exact ⟨renameGitignore_id d2 hnone, hexit⟩

/-- Witness for C8 at a concrete run whose template ships the gitignore
file. -/
theorem createProject_gitignore_rename_witness :
    lookupFile (setEntryFile (copyRecursive minimalTemplate []) (["package.json"])
        (FileData.jsonObj (setKey minimalManifest ("name") (jstr (basename ("my-docs"))))))
      (["gitignore"]) = some (FileData.raw ("node_modules\n.next\n")) ∧
    lookupFile (setEntryFile (copyRecursive minimalTemplate []) (["package.json"])
        (FileData.jsonObj (setKey minimalManifest ("name") (jstr (basename ("my-docs"))))))
      ([".gitignore"]) = none ∧
    (lookupFile (createProject ⟨"my-docs", "minimal", "npm", true⟩ envFresh).dest
       ([".gitignore"]) = some (FileData.raw ("node_modules\n.next\n")) ∧
     lookupFile (createProject ⟨"my-docs", "minimal", "npm", true⟩ envFresh).dest
       (["gitignore"]) = none) :=
  ⟨by decide, by decide,
   (createProject_gitignore_rename "my-docs" "minimal" "npm" true envFresh []
      ("minimal", minimalTemplate) minimalManifest _ (by decide) (by decide) (by decide)
      rfl).1 (FileData.raw ("node_modules\n.next\n")) (by decide) (by decide)⟩

/-- Witness for the amended C9 at a concrete name. -/
theorem validateProjectName_valid_iff_rules_witness :
    (validateProjectName ("my-docs")).valid = satisfiesPackageRules ("my-docs") ∧
    (validateProjectName ("my-docs")).problems =
      (if (validateNpmName ("my-docs")).validForNewPackages then []
       else (validateNpmName ("my-docs")).errors ++ (validateNpmName ("my-docs")).warnings) :=
  validateProjectName_valid_iff_rules ("my-docs")

/-- Witness for C10 at concrete flag combinations. -/
theorem detectPackageManager_flag_order_witness :
    detectPackageManager ⟨true, true, true⟩ (some ("yarn/1.22.19")) = "npm" ∧
    detectPackageManager ⟨false, true, true⟩ (some ("yarn/1.22.19")) = "yarn" ∧
    detectPackageManager ⟨false, false, true⟩ (some ("yarn/1.22.19")) = "pnpm" :=
  detectPackageManager_flag_order true true (some ("yarn/1.22.19"))
